import Mathlib

/-!
Shallow embedding of `src/main.cpp` of martynafford/game-of-life-ncurses:
a terminal Conway's Game of Life with a double-buffered boolean grid,
a non-wrapping generation rule, random seeding and half-block rendering.
-/

set_option maxHeartbeats 1000000

namespace GoL

/-- The C++ `grid` class: a fixed-size two-dimensional boolean field stored
row-major (`data[x + y * width]`). -/
structure grid where
  width : Nat
  height : Nat
  data : List Bool
deriving DecidableEq, Repr

/-- The bounds condition asserted by `grid::operator()`:
`0 <= x && x < width && 0 <= y && y < height`. -/
def grid.inB (g : grid) (x y : Int) : Prop :=
  0 ≤ x ∧ x < g.width ∧ 0 ≤ y ∧ y < g.height

instance (g : grid) (x y : Int) : Decidable (g.inB x y) := by
  unfold grid.inB; infer_instance

/-- Read access `const bool& grid::operator()(int x, int y)`, total model:
out-of-bounds reads (which the C++ code asserts against and never performs)
yield `false`. -/
def grid.get (g : grid) (x y : Int) : Bool :=
  if g.inB x y then g.data.getD (x + y * g.width).toNat false else false

/-- Write access `bool& grid::operator()(int x, int y)` used as an lvalue:
set cell `(x, y)` to `v` (loop variables are always non-negative). -/
def grid.set (g : grid) (x y : Nat) (v : Bool) : grid :=
  ⟨g.width, g.height, g.data.set (x + y * g.width) v⟩

@[simp]
lemma grid.set_width (g : grid) (x y : Nat) (v : Bool) : (g.set x y v).width = g.width := rfl

@[simp]
lemma grid.set_height (g : grid) (x y : Nat) (v : Bool) : (g.set x y v).height = g.height := rfl

@[simp]
lemma grid.set_data_length (g : grid) (x y : Nat) (v : Bool) :
    (g.set x y v).data.length = g.data.length := by
  simp [grid.set]

lemma grid.get_oob (g : grid) (x y : Int) (h : ¬ g.inB x y) : g.get x y = false := by
  simp [grid.get, h]

/-- Row-major index injectivity: with both x-coordinates in range,
equal flat indices force equal coordinates. -/
lemma index_inj {w x a y b : Nat} (hx : x < w) (ha : a < w) :
    x + y * w = a + b * w ↔ x = a ∧ y = b := by
  constructor
  · intro h
    have hxa : x = a := by
      have h1 : (x + y * w) % w = x := by
        rw [Nat.add_mul_mod_self_right, Nat.mod_eq_of_lt hx]
      have h2 : (a + b * w) % w = a := by
        rw [Nat.add_mul_mod_self_right, Nat.mod_eq_of_lt ha]
      rw [h] at h1; rw [h1] at h2; exact h2
    refine ⟨hxa, ?_⟩
    subst hxa
    have hw : 0 < w := Nat.lt_of_le_of_lt (Nat.zero_le x) hx
    have : y * w = b * w := by omega
    exact Nat.eq_of_mul_eq_mul_right hw this
  · rintro ⟨rfl, rfl⟩; rfl

lemma grid.inB_set (g : grid) (x y : Nat) (v : Bool) (a b : Int) :
    (g.set x y v).inB a b ↔ g.inB a b := by
  simp [grid.inB, grid.set]

/-- Effect of a single in-bounds write on subsequent reads. -/
lemma grid.set_get (g : grid) (x y : Nat) (v : Bool)
    (hx : x < g.width) (hy : y < g.height)
    (hlen : g.data.length = g.width * g.height) (a b : Int) :
    (g.set x y v).get a b = if a = x ∧ b = y then v else g.get a b := by
  have hidxlt : x + y * g.width < g.data.length := by
    rw [hlen]
    calc x + y * g.width < g.width + y * g.width := by omega
      _ = (y + 1) * g.width := by ring
      _ ≤ g.height * g.width := Nat.mul_le_mul_right _ (by omega)
      _ = g.width * g.height := Nat.mul_comm _ _
  by_cases heq : a = (x : Int) ∧ b = (y : Int)
  · obtain ⟨rfl, rfl⟩ := heq
    rw [if_pos ⟨rfl, rfl⟩]
    have hin : (g.set x y v).inB ↑x ↑y := by
      rw [grid.inB_set]
      refine ⟨by omega, ?_, by omega, ?_⟩ <;> [exact_mod_cast hx; exact_mod_cast hy]
    rw [grid.get, if_pos hin]
    have hidx : ((x : Int) + (y : Int) * ((g.set x y v).width : Int)).toNat
        = x + y * g.width := by
      rw [grid.set_width]; omega
    rw [hidx]
    show (g.data.set (x + y * g.width) v).getD (x + y * g.width) false = v
    rw [List.getD_eq_getElem?_getD, List.getElem?_set_self hidxlt]
    rfl
  · rw [if_neg heq]
    by_cases hin : g.inB a b
    · obtain ⟨ha0, haw, hb0, hbh⟩ := hin
      rw [grid.get, if_pos ((g.inB_set x y v a b).mpr ⟨ha0, haw, hb0, hbh⟩),
          grid.get, if_pos ⟨ha0, haw, hb0, hbh⟩]
      have haw' : a.toNat < g.width := by omega
      have hbw : (b * (g.width : Int)) = ((b.toNat * g.width : Nat) : Int) := by
        push_cast
        rw [Int.toNat_of_nonneg hb0]
      have hidx : (a + b * ((g.set x y v).width : Int)).toNat
          = a.toNat + b.toNat * g.width := by
        rw [grid.set_width, hbw]; omega
      have hidx' : (a + b * ((g : grid).width : Int)).toNat
          = a.toNat + b.toNat * g.width := by
        rw [hbw]; omega
      rw [hidx, hidx']
      show (g.data.set (x + y * g.width) v).getD (a.toNat + b.toNat * g.width) false
          = g.data.getD (a.toNat + b.toNat * g.width) false
      have hne : x + y * g.width ≠ a.toNat + b.toNat * g.width := by
        rw [Ne, index_inj hx haw']
        intro ⟨h1, h2⟩
        exact heq ⟨by omega, by omega⟩
      simp only [List.getD_eq_getElem?_getD]
      rw [List.getElem?_set_ne hne]
    · have hoob : ¬ (g.set x y v).inB a b := fun h => hin ((g.inB_set x y v a b).mp h)
      rw [grid.get_oob _ _ _ hoob, grid.get_oob _ _ _ hin]

/-- In-bounds reads hit the underlying flat list at the row-major index. -/
lemma grid.get_eq_getD (g : grid) (x y : Nat) (hx : x < g.width) (hy : y < g.height) :
    g.get x y = g.data.getD (x + y * g.width) false := by
  have hin : g.inB x y :=
    ⟨by omega, by exact_mod_cast hx, by omega, by exact_mod_cast hy⟩
  rw [grid.get, if_pos hin]
  have hcast : ((x : Int) + (y : Int) * (g.width : Int)) = ((x + y * g.width : Nat) : Int) := by
    push_cast
    ring
  rw [hcast, Int.toNat_natCast]

/-- Two well-formed grids of equal dimensions agreeing on every in-bounds cell
are equal. -/
lemma grid.eq_of_get (g1 g2 : grid) (hw : g1.width = g2.width) (hh : g1.height = g2.height)
    (hl1 : g1.data.length = g1.width * g1.height)
    (hl2 : g2.data.length = g2.width * g2.height)
    (hget : ∀ x y : Nat, x < g1.width → y < g1.height → g1.get x y = g2.get x y) :
    g1 = g2 := by
  obtain ⟨w1, h1, d1⟩ := g1
  obtain ⟨w2, h2, d2⟩ := g2
  simp only at hw hh hl1 hl2 hget
  subst hw hh
  simp only [grid.mk.injEq, true_and]
  apply List.ext_getElem (by omega)
  intro i hi1 hi2
  have hw : 0 < w1 := by
    rcases Nat.eq_zero_or_pos w1 with h | h
    · rw [h] at hl1; omega
    · exact h
  have hmod : i % w1 < w1 := Nat.mod_lt _ hw
  have hdiv : i / w1 < h1 := by
    rw [hl1] at hi1
    exact Nat.div_lt_of_lt_mul (by omega)
  have e1 := grid.get_eq_getD ⟨w1, h1, d1⟩ (i % w1) (i / w1) hmod hdiv
  have e2 := grid.get_eq_getD ⟨w1, h1, d2⟩ (i % w1) (i / w1) hmod hdiv
  simp only [Nat.mod_add_div'] at e1 e2
  rw [List.getD_eq_getElem?_getD, List.getElem?_eq_getElem hi1] at e1
  rw [List.getD_eq_getElem?_getD, List.getElem?_eq_getElem hi2] at e2
  simp only [Option.getD_some] at e1 e2
  rw [← e1, ← e2]
  exact hget _ _ hmod hdiv

/-- The C++ ternary `cond ? 1 : 0` used for each neighbour term. -/
def b2i (b : Bool) : Nat := if b then 1 else 0

/-- The neighbour count computed in the loop body of `next_generation`.
The guards mirror `left = (x != 0)`, `up = (y != 0)`,
`right = (x != in.width - 1)`, `down = (y != in.height - 1)`, and each of the
eight terms is `guard && in(nx, ny) ? 1 : 0`. -/
def neighbours (g : grid) (x y : Int) : Nat :=
  let left := x != 0
  let up := y != 0
  let right := x != (g.width : Int) - 1
  let down := y != (g.height : Int) - 1
  b2i (left && up && g.get (x - 1) (y - 1)) +
  b2i (left && g.get (x - 1) y) +
  b2i (left && down && g.get (x - 1) (y + 1)) +
  b2i (up && g.get x (y - 1)) +
  b2i (down && g.get x (y + 1)) +
  b2i (right && up && g.get (x + 1) (y - 1)) +
  b2i (right && g.get (x + 1) y) +
  b2i (right && down && g.get (x + 1) (y + 1))

/-- The value assigned to `out(x, y)` by `next_generation`: a live cell
survives with 2 or 3 neighbours, a dead cell is born with exactly 3. -/
def lifeStep (src : grid) (x y : Int) : Bool :=
  let currently_alive := src.get x y
  let n := neighbours src x y
  if currently_alive then n == 2 || n == 3 else n == 3

/-- `next_generation(const grid& in, grid& out)`: for each `y` in
`0..in.height-1` and each `x` in `0..in.width-1`, write the rule's value into
`out(x, y)`. -/
def next_generation (src out : grid) : grid :=
  (List.range src.height).foldl (fun o y =>
    (List.range src.width).foldl (fun o x =>
      o.set x y (lifeStep src x y)) o) out

lemma foldl_row_dims (f : Nat → Bool) (y : Nat) (l : List Nat) (o : grid) :
    (l.foldl (fun g x => g.set x y (f x)) o).width = o.width ∧
    (l.foldl (fun g x => g.set x y (f x)) o).height = o.height ∧
    (l.foldl (fun g x => g.set x y (f x)) o).data.length = o.data.length := by
  induction l generalizing o with
  | nil => exact ⟨rfl, rfl, rfl⟩
  | cons hd tl ih =>
    rw [List.foldl_cons]
    obtain ⟨h1, h2, h3⟩ := ih (o.set hd y (f hd))
    exact ⟨by rw [h1]; rfl, by rw [h2]; rfl, by rw [h3]; simp⟩

lemma foldl_grid_dims (F : Nat → Nat → Bool) (w : Nat) (l : List Nat) (o : grid) :
    (l.foldl (fun g y => (List.range w).foldl (fun g x => g.set x y (F x y)) g) o).width
      = o.width ∧
    (l.foldl (fun g y => (List.range w).foldl (fun g x => g.set x y (F x y)) g) o).height
      = o.height ∧
    (l.foldl (fun g y => (List.range w).foldl (fun g x => g.set x y (F x y)) g) o).data.length
      = o.data.length := by
  induction l generalizing o with
  | nil => exact ⟨rfl, rfl, rfl⟩
  | cons hd tl ih =>
    rw [List.foldl_cons]
    obtain ⟨h1, h2, h3⟩ :=
      ih ((List.range w).foldl (fun g x => g.set x hd (F x hd)) o)
    obtain ⟨r1, r2, r3⟩ := foldl_row_dims (fun x => F x hd) hd (List.range w) o
    exact ⟨by rw [h1, r1], by rw [h2, r2], by rw [h3, r3]⟩

/-- Characterisation of one row sweep: the cells `(0..n-1, y)` hold the new
values, everything else is untouched. -/
lemma foldl_row_get (f : Nat → Bool) (y : Nat) (o : grid) (n : Nat)
    (hn : n ≤ o.width) (hy : y < o.height)
    (hlen : o.data.length = o.width * o.height) (a b : Int) :
    ((List.range n).foldl (fun g x => g.set x y (f x)) o).get a b
      = if 0 ≤ a ∧ a < n ∧ b = y then f a.toNat else o.get a b := by
  induction n with
  | zero =>
    simp only [List.range_zero, List.foldl_nil]
    have : ¬ (0 ≤ a ∧ a < (0 : Nat) ∧ b = (y : Int)) := by
      rintro ⟨h1, h2, h3⟩; omega
    rw [if_neg this]
  | succ m ih =>
    rw [List.range_succ, List.foldl_append, List.foldl_cons, List.foldl_nil]
    obtain ⟨d1, d2, d3⟩ := foldl_row_dims f y (List.range m) o
    rw [grid.set_get _ _ _ _ (by omega) (by omega) (by rw [d3, d1, d2]; exact hlen)]
    rw [ih (by omega)]
    by_cases h1 : a = (m : Int) ∧ b = (y : Int)
    · obtain ⟨ha, hb⟩ := h1
      rw [if_pos ⟨ha, hb⟩, if_pos (by omega)]
      have : a.toNat = m := by omega
      rw [this]
    · rw [if_neg h1]
      by_cases h2 : 0 ≤ a ∧ a < (m : Int) ∧ b = (y : Int)
      · rw [if_pos h2, if_pos (by omega)]
      · rw [if_neg h2, if_neg (by omega)]

/-- Characterisation of the full double loop of `next_generation`: cells with
`x < w` and `y < m` hold the new values, everything else is untouched. -/
lemma foldl_grid_get (F : Nat → Nat → Bool) (w : Nat) (o : grid) (m : Nat)
    (hw : w ≤ o.width) (hm : m ≤ o.height)
    (hlen : o.data.length = o.width * o.height) (a b : Int) :
    ((List.range m).foldl
        (fun g y => (List.range w).foldl (fun g x => g.set x y (F x y)) g) o).get a b
      = if 0 ≤ a ∧ a < w ∧ 0 ≤ b ∧ b < m then F a.toNat b.toNat else o.get a b := by
  induction m with
  | zero =>
    simp only [List.range_zero, List.foldl_nil]
    have : ¬ (0 ≤ a ∧ a < (w : Int) ∧ 0 ≤ b ∧ b < (0 : Nat)) := by
      rintro ⟨h1, h2, h3, h4⟩; omega
    rw [if_neg this]
  | succ k ih =>
    rw [List.range_succ, List.foldl_append, List.foldl_cons, List.foldl_nil]
    obtain ⟨d1, d2, d3⟩ :=
      foldl_grid_dims F w (List.range k) o
    rw [foldl_row_get (fun x => F x k) k _ w (by omega) (by omega)
      (by rw [d3, d1, d2]; exact hlen)]
    rw [ih (by omega)]
    by_cases h1 : 0 ≤ a ∧ a < (w : Int) ∧ b = (k : Int)
    · obtain ⟨ha, hb, hc⟩ := h1
      rw [if_pos ⟨ha, hb, hc⟩, if_pos (by omega)]
      have : b.toNat = k := by omega
      rw [this]
    · rw [if_neg h1]
      by_cases h2 : 0 ≤ a ∧ a < (w : Int) ∧ 0 ≤ b ∧ b < (k : Int)
      · rw [if_pos h2, if_pos (by omega)]
      · rw [if_neg h2, if_neg (by omega)]

/-- Pointwise description of `next_generation`: every in-bounds destination
cell holds the rule's value computed from the source grid. -/
lemma next_generation_get (src out : grid)
    (hw : out.width = src.width) (hh : out.height = src.height)
    (hlen : out.data.length = out.width * out.height) (a b : Int)
    (ha : 0 ≤ a) (haw : a < src.width) (hb : 0 ≤ b) (hbh : b < src.height) :
    (next_generation src out).get a b = lifeStep src a b := by
  unfold next_generation
  rw [foldl_grid_get (fun x y => lifeStep src x y) src.width out src.height
    (by omega) (by omega) hlen]
  rw [if_pos ⟨ha, haw, hb, hbh⟩]
  rw [Int.toNat_of_nonneg ha, Int.toNat_of_nonneg hb]

lemma next_generation_width (src out : grid) :
    (next_generation src out).width = out.width :=
  (foldl_grid_dims (fun x y => lifeStep src x y) src.width (List.range src.height) out).1

lemma next_generation_height (src out : grid) :
    (next_generation src out).height = out.height :=
  (foldl_grid_dims (fun x y => lifeStep src x y) src.width (List.range src.height) out).2.1

lemma next_generation_data_length (src out : grid) :
    (next_generation src out).data.length = out.data.length :=
  (foldl_grid_dims (fun x y => lifeStep src x y) src.width (List.range src.height) out).2.2

/-- A guarded neighbour term equals the unguarded read whenever a false guard
forces the read out of bounds (where reads yield `false` anyway). -/
lemma b2i_guard (g : grid) (c : Bool) (u v : Int) (h : c = false → ¬ g.inB u v) :
    b2i (c && g.get u v) = b2i (g.get u v) := by
  cases hc : c
  · rw [grid.get_oob _ _ _ (h hc)]
    rfl
  · rw [Bool.true_and]

lemma bne_false {u v : Int} (h : (u != v) = false) : u = v := by
  simpa using h

lemma and_false_cases {p q : Bool} (h : (p && q) = false) : p = false ∨ q = false := by
  cases p <;> cases q <;> simp_all

/-- The four boundary guards of `next_generation` are redundant in the total
model: a false guard forces the read out of bounds, where reads yield `false`.
The neighbour count is the plain sum over the eight adjacent positions,
off-grid positions contributing nothing. -/
lemma neighbours_eq_sum (g : grid) (x y : Int) :
    neighbours g x y =
      b2i (g.get (x - 1) (y - 1)) + b2i (g.get (x - 1) y) + b2i (g.get (x - 1) (y + 1)) +
      b2i (g.get x (y - 1)) + b2i (g.get x (y + 1)) +
      b2i (g.get (x + 1) (y - 1)) + b2i (g.get (x + 1) y) + b2i (g.get (x + 1) (y + 1)) := by
  simp only [neighbours]
  rw [b2i_guard g ((x != 0) && (y != 0)) (x - 1) (y - 1) (fun h => by
    rcases and_false_cases h with h' | h' <;> have := bne_false h' <;>
      (intro hin; obtain ⟨c1, c2, c3, c4⟩ := hin; omega))]
  rw [b2i_guard g (x != 0) (x - 1) y (fun h => by
    have := bne_false h
    intro hin; obtain ⟨c1, c2, c3, c4⟩ := hin; omega)]
  rw [b2i_guard g ((x != 0) && (y != (g.height : Int) - 1)) (x - 1) (y + 1) (fun h => by
    rcases and_false_cases h with h' | h' <;> have := bne_false h' <;>
      (intro hin; obtain ⟨c1, c2, c3, c4⟩ := hin; omega))]
  rw [b2i_guard g (y != 0) x (y - 1) (fun h => by
    have := bne_false h
    intro hin; obtain ⟨c1, c2, c3, c4⟩ := hin; omega)]
  rw [b2i_guard g (y != (g.height : Int) - 1) x (y + 1) (fun h => by
    have := bne_false h
    intro hin; obtain ⟨c1, c2, c3, c4⟩ := hin; omega)]
  rw [b2i_guard g ((x != (g.width : Int) - 1) && (y != 0)) (x + 1) (y - 1) (fun h => by
    rcases and_false_cases h with h' | h' <;> have := bne_false h' <;>
      (intro hin; obtain ⟨c1, c2, c3, c4⟩ := hin; omega))]
  rw [b2i_guard g (x != (g.width : Int) - 1) (x + 1) y (fun h => by
    have := bne_false h
    intro hin; obtain ⟨c1, c2, c3, c4⟩ := hin; omega)]
  rw [b2i_guard g ((x != (g.width : Int) - 1) && (y != (g.height : Int) - 1)) (x + 1) (y + 1)
    (fun h => by
      rcases and_false_cases h with h' | h' <;> have := bne_false h' <;>
        (intro hin; obtain ⟨c1, c2, c3, c4⟩ := hin; omega))]

/-- The C++ `double_buffered_grid`: two grids `a` and `b` plus the selector
flag `first` (initially true) that decides which is the front buffer. -/
structure double_buffered_grid where
  first : Bool
  a : grid
  b : grid
deriving DecidableEq

namespace double_buffered_grid

/-- The constructor `double_buffered_grid(int width, int height)`: both grids
get the requested dimensions; their heap cell contents start unspecified,
modelled by explicit initial data lists. -/
def init (width height : Nat) (da db : List Bool) : double_buffered_grid :=
  ⟨true, ⟨width, height, da⟩, ⟨width, height, db⟩⟩

/-- `front()`: the grid currently in the front role. -/
def front (d : double_buffered_grid) : grid := if d.first then d.a else d.b

/-- `back()`: the grid currently in the back role. -/
def back (d : double_buffered_grid) : grid := if d.first then d.b else d.a

/-- `swap()`: `first = !first` — only the selector flag changes. -/
def swap (d : double_buffered_grid) : double_buffered_grid :=
  { d with first := !d.first }

/-- Mutation performed through the mutable reference returned by `back()`:
replace the grid currently in the back role. -/
def setBack (d : double_buffered_grid) (g : grid) : double_buffered_grid :=
  if d.first then { d with b := g } else { d with a := g }

end double_buffered_grid

/-- The seeding constant `frequency = 3`: lower means more initial alive
cells. -/
def frequency : Nat := 3

/-- The C++ `game_of_life` class: owns one double-buffered grid. -/
structure game_of_life where
  buffer : double_buffered_grid
deriving DecidableEq

namespace game_of_life

/-- The seeding loop of the `game_of_life` constructor: for
`i = 0 .. width*height - 1`, set `grid(i % width, i / width)` to whether the
i-th random draw equals zero. The successive values produced by
`uniform_int_distribution<int>{0, frequency}` on the seeded engine are
abstracted as a stream `draws` of naturals bounded by `frequency`. -/
def seedLoop (width height : Nat) (draws : Nat → Nat) (g : grid) : grid :=
  (List.range (width * height)).foldl
    (fun g i => g.set (i % width) (i / width) (draws i == 0)) g

/-- The constructor `game_of_life(int width, int height)`: allocate the double
buffer, seed the back grid cell by cell, then swap so the seeded grid becomes
the front buffer. -/
def init (width height : Nat) (draws : Nat → Nat) (da db : List Bool) : game_of_life :=
  let buffer := double_buffered_grid.init width height da db
  let seeded := seedLoop width height draws buffer.back
  ⟨(buffer.setBack seeded).swap⟩

/-- `tick()`: `next_generation(buffer.front(), buffer.back()); buffer.swap();`. -/
def tick (s : game_of_life) : game_of_life :=
  ⟨(s.buffer.setBack (next_generation s.buffer.front s.buffer.back)).swap⟩

end game_of_life

lemma foldl_seed_dims (w : Nat) (f : Nat → Bool) (l : List Nat) (o : grid) :
    (l.foldl (fun g i => g.set (i % w) (i / w) (f i)) o).width = o.width ∧
    (l.foldl (fun g i => g.set (i % w) (i / w) (f i)) o).height = o.height ∧
    (l.foldl (fun g i => g.set (i % w) (i / w) (f i)) o).data.length = o.data.length := by
  induction l generalizing o with
  | nil => exact ⟨rfl, rfl, rfl⟩
  | cons hd tl ih =>
    rw [List.foldl_cons]
    obtain ⟨h1, h2, h3⟩ := ih (o.set (hd % w) (hd / w) (f hd))
    exact ⟨by rw [h1]; rfl, by rw [h2]; rfl, by rw [h3]; simp⟩

/-- Characterisation of the seeding loop: the first `n` cells in row-major
order hold the draw results, the rest are untouched. -/
lemma foldl_seed_get (f : Nat → Bool) (o : grid) (n : Nat)
    (hn : n ≤ o.width * o.height)
    (hlen : o.data.length = o.width * o.height) (a b : Int) :
    ((List.range n).foldl (fun g i => g.set (i % o.width) (i / o.width) (f i)) o).get a b
      = if 0 ≤ a ∧ a < (o.width : Int) ∧ 0 ≤ b ∧ b < (o.height : Int) ∧
            a.toNat + b.toNat * o.width < n
        then f (a.toNat + b.toNat * o.width) else o.get a b := by
  induction n with
  | zero =>
    simp only [List.range_zero, List.foldl_nil]
    have : ¬ (0 ≤ a ∧ a < (o.width : Int) ∧ 0 ≤ b ∧ b < (o.height : Int) ∧
        a.toNat + b.toNat * o.width < 0) := by
      rintro ⟨h1, h2, h3, h4, h5⟩; omega
    rw [if_neg this]
  | succ n ih =>
    rw [List.range_succ, List.foldl_append, List.foldl_cons, List.foldl_nil]
    obtain ⟨d1, d2, d3⟩ := foldl_seed_dims o.width f (List.range n) o
    have hw : 0 < o.width := by
      rcases Nat.eq_zero_or_pos o.width with h | h
      · rw [h] at hn; simp at hn
      · exact h
    set xi := n % o.width with hxi
    set yi := n / o.width with hyi
    clear_value xi yi
    have hmod : xi < o.width := hxi ▸ Nat.mod_lt _ hw
    have hdiv : yi < o.height := hyi ▸ Nat.div_lt_of_lt_mul (by omega)
    rw [grid.set_get _ _ _ _ (by rw [d1]; exact hmod) (by rw [d2]; exact hdiv)
      (by rw [d3, d1, d2]; exact hlen)]
    rw [ih (by omega)]
    by_cases hab : a = (xi : Int) ∧ b = (yi : Int)
    · obtain ⟨ha, hb⟩ := hab
      rw [if_pos ⟨ha, hb⟩]
      have hta : a.toNat = xi := by omega
      have htb : b.toNat = yi := by omega
      have hidx : a.toNat + b.toNat * o.width = n := by
        rw [hta, htb, hxi, hyi, Nat.mod_add_div']
      rw [if_pos ⟨by omega, by omega, by omega, by omega, by omega⟩, hidx]
    · rw [if_neg hab]
      by_cases hc : 0 ≤ a ∧ a < (o.width : Int) ∧ 0 ≤ b ∧ b < (o.height : Int) ∧
          a.toNat + b.toNat * o.width < n
      · obtain ⟨e1, e2, e3, e4, e5⟩ := hc
        rw [if_pos ⟨e1, e2, e3, e4, e5⟩, if_pos ⟨e1, e2, e3, e4, by omega⟩]
      · rw [if_neg hc]
        by_cases hd : 0 ≤ a ∧ a < (o.width : Int) ∧ 0 ≤ b ∧ b < (o.height : Int) ∧
            a.toNat + b.toNat * o.width < n + 1
        · exfalso
          obtain ⟨e1, e2, e3, e4, e5⟩ := hd
          have heq : a.toNat + b.toNat * o.width = n := by
            have : ¬ (a.toNat + b.toNat * o.width < n) :=
              fun hlt => hc ⟨e1, e2, e3, e4, hlt⟩
            omega
          have := (@index_inj o.width a.toNat xi b.toNat yi
              (show a.toNat < o.width by omega) hmod).mp
            (by rw [heq, hxi, hyi, Nat.mod_add_div'])
          exact hab ⟨by omega, by omega⟩
        · rw [if_neg hd]

/-- The terminal surface written through `move`/`addstr`, as a mapping from
(screen row, column) to the glyph most recently written there. -/
def Screen : Type := Nat → Nat → String

/-- One `addstr` call at screen position `(r, c)`. -/
def writeAt (s : Screen) (r c : Nat) (v : String) : Screen :=
  fun r' c' => if r' = r ∧ c' = c then v else s r' c'

def full : String := "█"
def upper : String := "▀"
def lower : String := "▄"
def blank : String := " "

/-- The glyph selected by `render`'s `addstr` argument:
`top ? (bottom ? full : upper) : (bottom ? lower : " ")`. -/
def glyph (top bottom : Bool) : String :=
  if top then (if bottom then full else upper) else (if bottom then lower else blank)

/-- The loop body of `game_of_life::render` applied to a grid: for each pair
of grid rows `(2r, 2r + 1)` (the cursor is moved to screen row `y / 2 = r`,
column 0) and each column `x`, write the half-block glyph of the two stacked
cells. Defined for the even heights the C++ code asserts. -/
def renderGrid (g : grid) (scr : Screen) : Screen :=
  (List.range (g.height / 2)).foldl (fun s r =>
    (List.range g.width).foldl (fun s x =>
      writeAt s r x (glyph (g.get x (2 * r)) (g.get x (2 * r + 1)))) s) scr

namespace game_of_life

/-- `render()` reads only `buffer.front()` and writes the screen. -/
def render (s : game_of_life) (scr : Screen) : Screen :=
  renderGrid s.buffer.front scr

/-- `render()` with its `assert(buffer.front().height % 2 == 0)` made
explicit: an odd front-grid height fails fast (`none`). -/
def render? (s : game_of_life) (scr : Screen) : Option Screen :=
  if s.buffer.front.height % 2 == 0 then some (s.render scr) else none

end game_of_life

lemma foldl_scr_row (f : Nat → String) (r : Nat) (s : Screen) (n : Nat) (r' c' : Nat) :
    ((List.range n).foldl (fun s x => writeAt s r x (f x)) s) r' c'
      = if r' = r ∧ c' < n then f c' else s r' c' := by
  induction n with
  | zero =>
    simp only [List.range_zero, List.foldl_nil]
    have : ¬ (r' = r ∧ c' < 0) := by rintro ⟨h1, h2⟩; omega
    rw [if_neg this]
  | succ m ih =>
    rw [List.range_succ, List.foldl_append, List.foldl_cons, List.foldl_nil, writeAt]
    rw [ih]
    by_cases h1 : r' = r ∧ c' = m
    · rw [if_pos h1, if_pos ⟨h1.1, by omega⟩, h1.2]
    · rw [if_neg h1]
      by_cases h2 : r' = r ∧ c' < m
      · rw [if_pos h2, if_pos ⟨h2.1, by omega⟩]
      · rw [if_neg h2]
        have : ¬ (r' = r ∧ c' < m + 1) := by
          rintro ⟨hr, hc⟩
          rcases Nat.lt_succ_iff_lt_or_eq.mp hc with h | h
          · exact h2 ⟨hr, h⟩
          · exact h1 ⟨hr, h⟩
        rw [if_neg this]

lemma foldl_scr_grid (F : Nat → Nat → String) (w : Nat) (s : Screen) (m : Nat)
    (r' c' : Nat) :
    ((List.range m).foldl
        (fun s r => (List.range w).foldl (fun s x => writeAt s r x (F x r)) s) s) r' c'
      = if r' < m ∧ c' < w then F c' r' else s r' c' := by
  induction m generalizing s with
  | zero =>
    simp only [List.range_zero, List.foldl_nil]
    have : ¬ (r' < 0 ∧ c' < w) := by rintro ⟨h1, h2⟩; omega
    rw [if_neg this]
  | succ k ih =>
    rw [List.range_succ, List.foldl_append, List.foldl_cons, List.foldl_nil]
    rw [foldl_scr_row]
    rw [ih]
    by_cases h1 : r' = k ∧ c' < w
    · rw [if_pos h1]
      have : ¬ (r' < k ∧ c' < w) := by rintro ⟨hr, _⟩; omega
      rw [if_pos ⟨by omega, h1.2⟩, h1.1]
    · rw [if_neg h1]
      by_cases h2 : r' < k ∧ c' < w
      · rw [if_pos h2, if_pos ⟨by omega, h2.2⟩]
      · rw [if_neg h2]
        have : ¬ (r' < k + 1 ∧ c' < w) := by
          rintro ⟨hr, hc⟩
          rcases Nat.lt_succ_iff_lt_or_eq.mp hr with h | h
          · exact h2 ⟨h, hc⟩
          · exact h1 ⟨h, hc⟩
        rw [if_neg this]

/-- Pointwise description of rendering: screen cell `(r, c)` with
`r < height / 2` and `c < width` shows the glyph packing grid rows `2r` and
`2r + 1` at column `c`; all other screen cells are untouched. -/
lemma renderGrid_apply (g : grid) (scr : Screen) (r c : Nat) :
    renderGrid g scr r c
      = if r < g.height / 2 ∧ c < g.width
        then glyph (g.get c (2 * r)) (g.get c (2 * r + 1)) else scr r c := by
  unfold renderGrid
  rw [foldl_scr_grid (fun x r => glyph (g.get x (2 * r)) (g.get x (2 * r + 1)))]

/-! ### Assertion-explicit model

The C++ `grid::operator()` asserts its bounds. The following `Option`-valued
model makes every assertion explicit: `none` models an assertion failure. -/

/-- Read access with the bounds assertion explicit. -/
def grid.get? (g : grid) (x y : Int) : Option Bool :=
  if g.inB x y then some (g.data.getD (x + y * g.width).toNat false) else none

/-- Write access with the bounds assertion explicit. -/
def grid.set? (g : grid) (x y : Int) (v : Bool) : Option grid :=
  if g.inB x y then some (g.set x.toNat y.toNat v) else none

/-- A guarded neighbour read `guard && in(nx, ny)`: since `&&` short-circuits,
the grid access (and hence its assertion) happens only when the guard holds. -/
def guardedGet? (c : Bool) (g : grid) (x y : Int) : Option Bool :=
  if c then g.get? x y else some false

/-- The neighbour count of `next_generation` with assertions explicit. -/
def neighbours? (g : grid) (x y : Int) : Option Nat := do
  let left := x != 0
  let up := y != 0
  let right := x != (g.width : Int) - 1
  let down := y != (g.height : Int) - 1
  let n1 ← guardedGet? (left && up) g (x - 1) (y - 1)
  let n2 ← guardedGet? left g (x - 1) y
  let n3 ← guardedGet? (left && down) g (x - 1) (y + 1)
  let n4 ← guardedGet? up g x (y - 1)
  let n5 ← guardedGet? down g x (y + 1)
  let n6 ← guardedGet? (right && up) g (x + 1) (y - 1)
  let n7 ← guardedGet? right g (x + 1) y
  let n8 ← guardedGet? (right && down) g (x + 1) (y + 1)
  return b2i n1 + b2i n2 + b2i n3 + b2i n4 + b2i n5 + b2i n6 + b2i n7 + b2i n8

/-- `next_generation` with every assertion explicit: the dimension assertion
at entry, the source read, the guarded neighbour reads and the destination
write of each loop iteration. -/
def next_generation? (src out : grid) : Option grid :=
  if src.width == out.width && src.height == out.height then
    (List.range src.height).foldlM (fun o (y : Nat) =>
      (List.range src.width).foldlM (fun o (x : Nat) => do
        let currently_alive ← src.get? x y
        let n ← neighbours? src x y
        o.set? x y (if currently_alive then n == 2 || n == 3 else n == 3)) o) out
  else none

lemma grid.get?_eq (g : grid) (x y : Int) (h : g.inB x y) :
    g.get? x y = some (g.get x y) := by
  rw [grid.get?, if_pos h, grid.get, if_pos h]

lemma grid.set?_eq (g : grid) (x y : Int) (v : Bool) (h : g.inB x y) :
    g.set? x y v = some (g.set x.toNat y.toNat v) := by
  rw [grid.set?, if_pos h]

lemma guardedGet?_eq (c : Bool) (g : grid) (x y : Int) (h : c = true → g.inB x y) :
    guardedGet? c g x y = some (c && g.get x y) := by
  cases hc : c
  · simp [guardedGet?]
  · simp [guardedGet?, grid.get?_eq g x y (h hc)]

/-- In bounds, the assertion-explicit neighbour count succeeds and agrees with
the total model. -/
lemma neighbours?_eq (g : grid) (x y : Int)
    (hx : 0 ≤ x) (hxw : x < g.width) (hy : 0 ≤ y) (hyh : y < g.height) :
    neighbours? g x y = some (neighbours g x y) := by
  have e1 := guardedGet?_eq ((x != 0) && (y != 0)) g (x - 1) (y - 1) (fun h => by
    simp only [Bool.and_eq_true, bne_iff_ne] at h
    exact ⟨by omega, by omega, by omega, by omega⟩)
  have e2 := guardedGet?_eq (x != 0) g (x - 1) y (fun h => by
    simp only [bne_iff_ne] at h
    exact ⟨by omega, by omega, by omega, by omega⟩)
  have e3 := guardedGet?_eq ((x != 0) && (y != (g.height : Int) - 1)) g (x - 1) (y + 1)
    (fun h => by
      simp only [Bool.and_eq_true, bne_iff_ne] at h
      exact ⟨by omega, by omega, by omega, by omega⟩)
  have e4 := guardedGet?_eq (y != 0) g x (y - 1) (fun h => by
    simp only [bne_iff_ne] at h
    exact ⟨by omega, by omega, by omega, by omega⟩)
  have e5 := guardedGet?_eq (y != (g.height : Int) - 1) g x (y + 1) (fun h => by
    simp only [bne_iff_ne] at h
    exact ⟨by omega, by omega, by omega, by omega⟩)
  have e6 := guardedGet?_eq ((x != (g.width : Int) - 1) && (y != 0)) g (x + 1) (y - 1)
    (fun h => by
      simp only [Bool.and_eq_true, bne_iff_ne] at h
      exact ⟨by omega, by omega, by omega, by omega⟩)
  have e7 := guardedGet?_eq (x != (g.width : Int) - 1) g (x + 1) y (fun h => by
    simp only [bne_iff_ne] at h
    exact ⟨by omega, by omega, by omega, by omega⟩)
  have e8 := guardedGet?_eq ((x != (g.width : Int) - 1) && (y != (g.height : Int) - 1))
    g (x + 1) (y + 1) (fun h => by
      simp only [Bool.and_eq_true, bne_iff_ne] at h
      exact ⟨by omega, by omega, by omega, by omega⟩)
  simp only [neighbours?, neighbours, e1, e2, e3, e4, e5, e6, e7, e8]
  rfl

/-- `foldlM` over `Option` succeeds and agrees with `foldl` when every step
succeeds, under an invariant on the accumulator. -/
lemma foldlM_option_eq {α β : Type} (f : β → α → Option β) (step : β → α → β)
    (P : β → Prop) (l : List α) :
    ∀ b : β, P b →
      (∀ b a, P b → a ∈ l → f b a = some (step b a)) →
      (∀ b a, P b → P (step b a)) →
      l.foldlM f b = some (l.foldl step b) := by
  induction l with
  | nil => intro b _ _ _; rfl
  | cons a l ih =>
    intro b hb hf hp
    rw [List.foldlM_cons, hf b a hb (List.mem_cons_self a l)]
    rw [List.foldl_cons]
    show (l.foldlM f (step b a)) = _
    exact ih (step b a) (hp b a hb)
      (fun b' a' hb' ha' => hf b' a' hb' (List.mem_cons_of_mem _ ha')) hp

/-- With equal dimensions the assertion-explicit `next_generation?` performs
only in-bounds accesses: no assertion fires and the result agrees with the
total model. -/
lemma next_generation?_eq (src out : grid)
    (hw : src.width = out.width) (hh : src.height = out.height) :
    next_generation? src out = some (next_generation src out) := by
  rw [next_generation?, if_pos (by simp [hw, hh])]
  unfold next_generation
  apply foldlM_option_eq _ _
    (fun o => o.width = out.width ∧ o.height = out.height ∧
      o.data.length = out.data.length)
    (List.range src.height) out ⟨rfl, rfl, rfl⟩
  · intro o y ⟨ho1, ho2, ho3⟩ hy
    rw [List.mem_range] at hy
    apply foldlM_option_eq _ _
      (fun o => o.width = out.width ∧ o.height = out.height ∧
        o.data.length = out.data.length)
      (List.range src.width) o ⟨ho1, ho2, ho3⟩
    · intro o' x ⟨hp1, hp2, hp3⟩ hx
      rw [List.mem_range] at hx
      have hsin : src.inB x y :=
        ⟨by omega, by exact_mod_cast hx, by omega, by exact_mod_cast hy⟩
      have hoin : o'.inB x y := by
        refine ⟨by omega, ?_, by omega, ?_⟩
        · rw [hp1, ← hw]; exact_mod_cast hx
        · rw [hp2, ← hh]; exact_mod_cast hy
      rw [grid.get?_eq src x y hsin]
      show (neighbours? src ↑x ↑y >>= _) = _
      rw [neighbours?_eq src x y (by omega) (by exact_mod_cast hx) (by omega)
        (by exact_mod_cast hy)]
      show o'.set? x y _ = _
      rw [grid.set?_eq o' x y _ hoin]
      simp only [Int.toNat_natCast]
      rfl
    · intro o' x ⟨hp1, hp2, hp3⟩
      exact ⟨by rw [grid.set_width]; exact hp1, by rw [grid.set_height]; exact hp2,
        by rw [grid.set_data_length]; exact hp3⟩
  · intro o y ⟨ho1, ho2, ho3⟩
    obtain ⟨r1, r2, r3⟩ :=
      foldl_row_dims (fun x => lifeStep src x y) y (List.range src.width) o
    exact ⟨by rw [r1]; exact ho1, by rw [r2]; exact ho2, by rw [r3]; exact ho3⟩

/-! ### Test patterns

Alive-cell patterns used by the spec's testable properties, as boolean
predicates on coordinates. -/

/-- A single alive cell at the origin, all other cells dead. -/
def singleB (x y : Int) : Bool := decide (x = 0 ∧ y = 0)

/-- The horizontal blinker: exactly (1,2), (2,2), (3,2) alive. -/
def horizB (x y : Int) : Bool := decide ((x = 1 ∨ x = 2 ∨ x = 3) ∧ y = 2)

/-- The vertical blinker: exactly (2,1), (2,2), (2,3) alive. -/
def vertB (x y : Int) : Bool := decide (x = 2 ∧ (y = 1 ∨ y = 2 ∨ y = 3))

/-- The neighbour sum of a coordinate pattern. -/
def patternSum (p : Int → Int → Bool) (x y : Int) : Nat :=
  b2i (p (x - 1) (y - 1)) + b2i (p (x - 1) y) + b2i (p (x - 1) (y + 1)) +
  b2i (p x (y - 1)) + b2i (p x (y + 1)) +
  b2i (p (x + 1) (y - 1)) + b2i (p (x + 1) y) + b2i (p (x + 1) (y + 1))

/-- One Life step of a pattern. -/
def patternStep (p : Int → Int → Bool) (x y : Int) : Bool :=
  if p x y then (patternSum p x y == 2 || patternSum p x y == 3)
  else patternSum p x y == 3

/-- A pattern hypothesis on in-bounds cells extends to all coordinates when
the pattern is confined to the grid (reads outside the grid yield `false`). -/
lemma grid.get_of_pattern (g : grid) (p : Int → Int → Bool)
    (hp : ∀ a b : Int, p a b = true → g.inB a b)
    (h : ∀ x : Nat, x < g.width → ∀ y : Nat, y < g.height → g.get x y = p x y) :
    ∀ a b : Int, g.get a b = p a b := by
  intro a b
  by_cases hin : g.inB a b
  · obtain ⟨h1, h2, h3, h4⟩ := hin
    have hx := h a.toNat (by omega) b.toNat (by omega)
    rw [Int.toNat_of_nonneg h1, Int.toNat_of_nonneg h3] at hx
    exact hx
  · cases hpb : p a b
    · exact grid.get_oob _ _ _ hin
    · exact absurd (hp a b hpb) hin

/-- On a grid whose cells realise a pattern, `lifeStep` computes the pattern's
Life step. -/
lemma lifeStep_of_pattern (g : grid) (p : Int → Int → Bool)
    (hg : ∀ a b : Int, g.get a b = p a b) (x y : Int) :
    lifeStep g x y = patternStep p x y := by
  simp only [lifeStep, patternStep, patternSum, neighbours_eq_sum, hg]

/-- One `next_generation` on a grid realising pattern `p` yields a grid
realising `p`'s Life step `q`, provided `q` stays inside the grid. -/
lemma next_generation_pattern (g out : grid) (p q : Int → Int → Bool)
    (hg : ∀ a b : Int, g.get a b = p a b)
    (hstep : ∀ x y : Int, patternStep p x y = q x y)
    (hq : ∀ a b : Int, q a b = true → g.inB a b)
    (hw : out.width = g.width) (hh : out.height = g.height)
    (hlen : out.data.length = out.width * out.height) :
    ∀ a b : Int, (next_generation g out).get a b = q a b := by
  intro a b
  by_cases hin : g.inB a b
  · obtain ⟨h1, h2, h3, h4⟩ := hin
    rw [next_generation_get g out hw hh hlen a b h1 h2 h3 h4]
    rw [lifeStep_of_pattern g p hg, hstep]
  · have hoob : ¬ (next_generation g out).inB a b := by
      intro hcon
      apply hin
      obtain ⟨c1, c2, c3, c4⟩ := hcon
      rw [next_generation_width, hw] at c2
      rw [next_generation_height, hh] at c4
      exact ⟨c1, c2, c3, c4⟩
    rw [grid.get_oob _ _ _ hoob]
    cases hqv : q a b
    · rfl
    · exact absurd (hq a b hqv) hin

/-- The lone origin cell dies and breeds nothing: its Life step is the empty
pattern. -/
lemma singleB_step (x y : Int) : patternStep singleB x y = false := by
  by_cases hbox : -1 ≤ x ∧ x ≤ 1 ∧ -1 ≤ y ∧ y ≤ 1
  · obtain ⟨h1, h2, h3, h4⟩ := hbox
    interval_cases x <;> interval_cases y <;> decide
  · have e : ∀ u v : Int, (u ≠ 0 ∨ v ≠ 0) → singleB u v = false := by
      intro u v h
      simp only [singleB, decide_eq_false_iff_not]
      omega
    have hs : patternSum singleB x y = 0 := by
      unfold patternSum
      rw [e (x - 1) (y - 1) (by omega), e (x - 1) y (by omega),
        e (x - 1) (y + 1) (by omega), e x (y - 1) (by omega), e x (y + 1) (by omega),
        e (x + 1) (y - 1) (by omega), e (x + 1) y (by omega),
        e (x + 1) (y + 1) (by omega)]
      rfl
    have h0 : singleB x y = false := e x y (by omega)
    rw [patternStep, hs, h0]
    decide

/-- The horizontal blinker's Life step is the vertical blinker. -/
lemma horizB_step (x y : Int) : patternStep horizB x y = vertB x y := by
  by_cases hbox : 0 ≤ x ∧ x ≤ 4 ∧ 1 ≤ y ∧ y ≤ 3
  · obtain ⟨h1, h2, h3, h4⟩ := hbox
    interval_cases x <;> interval_cases y <;> decide
  · have e : ∀ u v : Int, (u ≤ 0 ∨ 4 ≤ u ∨ v ≠ 2) → horizB u v = false := by
      intro u v h
      simp only [horizB, decide_eq_false_iff_not]
      omega
    have hs : patternSum horizB x y = 0 := by
      unfold patternSum
      rw [e (x - 1) (y - 1) (by omega), e (x - 1) y (by omega),
        e (x - 1) (y + 1) (by omega), e x (y - 1) (by omega), e x (y + 1) (by omega),
        e (x + 1) (y - 1) (by omega), e (x + 1) y (by omega),
        e (x + 1) (y + 1) (by omega)]
      rfl
    have h0 : horizB x y = false := e x y (by omega)
    have hv : vertB x y = false := by
      simp only [vertB, decide_eq_false_iff_not]
      omega
    rw [patternStep, hs, h0, hv]
    decide

/-- The vertical blinker's Life step is the horizontal blinker. -/
lemma vertB_step (x y : Int) : patternStep vertB x y = horizB x y := by
  by_cases hbox : 1 ≤ x ∧ x ≤ 3 ∧ 0 ≤ y ∧ y ≤ 4
  · obtain ⟨h1, h2, h3, h4⟩ := hbox
    interval_cases x <;> interval_cases y <;> decide
  · have e : ∀ u v : Int, (u ≠ 2 ∨ v ≤ 0 ∨ 4 ≤ v) → vertB u v = false := by
      intro u v h
      simp only [vertB, decide_eq_false_iff_not]
      omega
    have hs : patternSum vertB x y = 0 := by
      unfold patternSum
      rw [e (x - 1) (y - 1) (by omega), e (x - 1) y (by omega),
        e (x - 1) (y + 1) (by omega), e x (y - 1) (by omega), e x (y + 1) (by omega),
        e (x + 1) (y - 1) (by omega), e (x + 1) y (by omega),
        e (x + 1) (y + 1) (by omega)]
      rfl
    have h0 : vertB x y = false := e x y (by omega)
    have hv : horizB x y = false := by
      simp only [horizB, decide_eq_false_iff_not]
      omega
    rw [patternStep, hs, h0, hv]
    decide

lemma index_lt {x y w h : Nat} (hx : x < w) (hy : y < h) : x + y * w < w * h := by
  calc x + y * w < w + y * w := by omega
    _ = (y + 1) * w := by ring
    _ ≤ h * w := Nat.mul_le_mul_right _ (by omega)
    _ = w * h := Nat.mul_comm _ _

/-- Pointwise description of the constructor's seeding loop: cell `(x, y)` is
alive iff draw number `x + y * width` is zero. -/
lemma seedLoop_get (w h : Nat) (draws : Nat → Nat) (g : grid)
    (hgw : g.width = w) (hgh : g.height = h)
    (hlen : g.data.length = g.width * g.height)
    (x y : Nat) (hx : x < w) (hy : y < h) :
    (game_of_life.seedLoop w h draws g).get x y = (draws (x + y * w) == 0) := by
  subst hgw
  subst hgh
  unfold game_of_life.seedLoop
  rw [foldl_seed_get (fun i => draws i == 0) g (g.width * g.height) le_rfl hlen]
  rw [if_pos ⟨by omega, by exact_mod_cast hx, by omega, by exact_mod_cast hy, by
    simp only [Int.toNat_natCast]
    exact index_lt hx hy⟩]
  simp only [Int.toNat_natCast]

/-! ### Concrete instances used by the witnesses -/

/-- 5×5 grid holding the horizontal blinker (alive: (1,2), (2,2), (3,2)). -/
def blinkerG : grid :=
  ⟨5, 5, [false, false, false, false, false,
          false, false, false, false, false,
          false, true,  true,  true,  false,
          false, false, false, false, false,
          false, false, false, false, false]⟩

/-- 5×5 all-dead grid. -/
def dead5 : grid := ⟨5, 5, List.replicate 25 false⟩

/-- 5×5 all-alive grid (used as a noisy prior destination). -/
def noisy5 : grid := ⟨5, 5, List.replicate 25 true⟩

/-- 3×3 grid with a single alive cell at the origin. -/
def single3 : grid := ⟨3, 3, [true, false, false, false, false, false, false, false, false]⟩

/-- 3×3 all-dead grid. -/
def dead3 : grid := ⟨3, 3, List.replicate 9 false⟩

/-- The spec's render example: 2 columns × 2 rows, row 0 = (alive, dead),
row 1 = (dead, alive). -/
def renderG : grid := ⟨2, 2, [true, false, false, true]⟩

/-- 2×3 (odd-height) all-dead grid. -/
def odd23 : grid := ⟨2, 3, List.replicate 6 false⟩

/-- A blank screen. -/
def screen0 : Screen := fun _ _ => ""

/-- Simulation with the blinker as front buffer. -/
def game5 : game_of_life := ⟨⟨true, blinkerG, dead5⟩⟩

/-- Simulation with the render example as front buffer. -/
def gameR : game_of_life := ⟨⟨true, renderG, ⟨2, 2, List.replicate 4 false⟩⟩⟩

/-- Simulation with an odd-height front buffer. -/
def gameOdd : game_of_life := ⟨⟨true, odd23, odd23⟩⟩

/-! ### The claims -/

/-- C1: for every pair of equal-dimension grids and every in-bounds cell
(x, y), after one `next_generation` the destination cell is true iff either
the source cell is alive and its neighbour count is 2 or 3, or the source
cell is dead and its neighbour count is exactly 3; otherwise it is false. -/
theorem C1_generation_rule (src out : grid)
    (hw : out.width = src.width) (hh : out.height = src.height)
    (hlen : out.data.length = out.width * out.height)
    (x y : Int) (hx : 0 ≤ x) (hxw : x < src.width) (hy : 0 ≤ y) (hyh : y < src.height) :
    (next_generation src out).get x y = true ↔
      ((src.get x y = true ∧ (neighbours src x y = 2 ∨ neighbours src x y = 3)) ∨
       (src.get x y = false ∧ neighbours src x y = 3)) := by
  rw [next_generation_get src out hw hh hlen x y hx hxw hy hyh]
  simp only [lifeStep]
  cases h : src.get x y
  · simp [h]
  · simp [h]

/-- Witness for C1 at the blinker grid, cell (2, 2). -/
theorem C1_generation_rule_witness :
    dead5.width = blinkerG.width ∧
    ((next_generation blinkerG dead5).get 2 2 = true ↔
      ((blinkerG.get 2 2 = true ∧
          (neighbours blinkerG 2 2 = 2 ∨ neighbours blinkerG 2 2 = 3)) ∨
       (blinkerG.get 2 2 = false ∧ neighbours blinkerG 2 2 = 3))) :=
  ⟨by decide, C1_generation_rule blinkerG dead5 (by decide) (by decide) (by decide)
    2 2 (by decide) (by decide) (by decide) (by decide)⟩

/-- C2: off-grid positions never contribute to a neighbour count (edges do
not wrap): on any grid whose single alive cell is (0,0), that cell has
neighbour count 0, and one `next_generation` leaves every cell dead. -/
theorem C2_no_wrap_single_cell_dies (g out : grid)
    (hw0 : 0 < g.width) (hh0 : 0 < g.height)
    (hg : ∀ x : Nat, x < g.width → ∀ y : Nat, y < g.height → g.get x y = singleB x y)
    (how : out.width = g.width) (hoh : out.height = g.height)
    (hlen : out.data.length = out.width * out.height) :
    neighbours g 0 0 = 0 ∧
    ∀ a b : Int, (next_generation g out).get a b = false := by
  have hgi : ∀ a b : Int, g.get a b = singleB a b :=
    grid.get_of_pattern g singleB
      (fun a b hab => by
        simp only [singleB, decide_eq_true_eq] at hab
        obtain ⟨rfl, rfl⟩ := hab
        exact ⟨le_refl 0, by exact_mod_cast hw0, le_refl 0, by exact_mod_cast hh0⟩)
      hg
  constructor
  · rw [neighbours_eq_sum]
    simp only [hgi]
    decide
  · exact next_generation_pattern g out singleB (fun _ _ => false) hgi
      (fun x y => singleB_step x y)
      (fun a b hab => by simp at hab)
      how hoh hlen

/-- Witness for C2 on a 3×3 grid. -/
theorem C2_no_wrap_single_cell_dies_witness :
    0 < single3.width ∧ neighbours single3 0 0 = 0 ∧
    (next_generation single3 dead3).get 0 0 = false ∧
    (next_generation single3 dead3).get 1 1 = false := by
  have h := C2_no_wrap_single_cell_dies single3 dead3 (by decide) (by decide)
    (by decide) (by decide) (by decide) (by decide)
  exact ⟨by decide, h.1, h.2 0 0, h.2 1 1⟩

/-- C3: `next_generation` reads only the source grid and fully overwrites the
destination: runs on the same source with arbitrary different prior
destination contents produce identical grids. -/
theorem C3_destination_independent (src out1 out2 : grid)
    (h1w : out1.width = src.width) (h1h : out1.height = src.height)
    (h1l : out1.data.length = out1.width * out1.height)
    (h2w : out2.width = src.width) (h2h : out2.height = src.height)
    (h2l : out2.data.length = out2.width * out2.height) :
    next_generation src out1 = next_generation src out2 := by
  apply grid.eq_of_get
  · rw [next_generation_width, next_generation_width, h1w, h2w]
  · rw [next_generation_height, next_generation_height, h1h, h2h]
  · rw [next_generation_data_length, next_generation_width, next_generation_height]
    exact h1l
  · rw [next_generation_data_length, next_generation_width, next_generation_height]
    exact h2l
  · intro x y hx hy
    rw [next_generation_width, h1w] at hx
    rw [next_generation_height, h1h] at hy
    rw [next_generation_get src out1 h1w h1h h1l x y (by omega) (by exact_mod_cast hx)
      (by omega) (by exact_mod_cast hy)]
    rw [next_generation_get src out2 h2w h2h h2l x y (by omega) (by exact_mod_cast hx)
      (by omega) (by exact_mod_cast hy)]

/-- Witness for C3: all-dead versus all-alive prior destination contents. -/
theorem C3_destination_independent_witness :
    dead5.data ≠ noisy5.data ∧
    next_generation blinkerG dead5 = next_generation blinkerG noisy5 :=
  ⟨by decide, C3_destination_independent blinkerG dead5 noisy5 (by decide) (by decide)
    (by decide) (by decide) (by decide) (by decide)⟩

/-- C4: on any grid of width ≥ 5 and height ≥ 5 holding exactly the
horizontal blinker (1,2), (2,2), (3,2), one `next_generation` yields exactly
the vertical blinker (2,1), (2,2), (2,3), and a second application restores
exactly the original grid (period-2 round-trip). -/
theorem C4_blinker_period_two (g out out2 : grid)
    (hw5 : 5 ≤ g.width) (hh5 : 5 ≤ g.height)
    (hg : ∀ x : Nat, x < g.width → ∀ y : Nat, y < g.height → g.get x y = horizB x y)
    (hgl : g.data.length = g.width * g.height)
    (h1w : out.width = g.width) (h1h : out.height = g.height)
    (h1l : out.data.length = out.width * out.height)
    (h2w : out2.width = g.width) (h2h : out2.height = g.height)
    (h2l : out2.data.length = out2.width * out2.height) :
    (∀ a b : Int, (next_generation g out).get a b = vertB a b) ∧
    next_generation (next_generation g out) out2 = g := by
  have hgi : ∀ a b : Int, g.get a b = horizB a b :=
    grid.get_of_pattern g horizB
      (fun a b hab => by
        simp only [horizB, decide_eq_true_eq] at hab
        obtain ⟨h1, rfl⟩ := hab
        exact ⟨by omega, by omega, by omega, by omega⟩)
      hg
  have hv : ∀ a b : Int, (next_generation g out).get a b = vertB a b :=
    next_generation_pattern g out horizB vertB hgi (fun x y => horizB_step x y)
      (fun a b hab => by
        simp only [vertB, decide_eq_true_eq] at hab
        obtain ⟨rfl, h2⟩ := hab
        exact ⟨by omega, by omega, by omega, by omega⟩)
      h1w h1h h1l
  refine ⟨hv, ?_⟩
  have hg1w : (next_generation g out).width = g.width := by
    rw [next_generation_width, h1w]
  have hg1h : (next_generation g out).height = g.height := by
    rw [next_generation_height, h1h]
  have hh2 : ∀ a b : Int,
      (next_generation (next_generation g out) out2).get a b = horizB a b :=
    next_generation_pattern (next_generation g out) out2 vertB horizB hv
      (fun x y => vertB_step x y)
      (fun a b hab => by
        simp only [horizB, decide_eq_true_eq] at hab
        obtain ⟨h1, rfl⟩ := hab
        refine ⟨by omega, ?_, by omega, ?_⟩
        · rw [hg1w]; omega
        · rw [hg1h]; omega)
      (by rw [h2w, hg1w]) (by rw [h2h, hg1h]) h2l
  apply grid.eq_of_get
  · rw [next_generation_width, h2w]
  · rw [next_generation_height, h2h]
  · rw [next_generation_data_length, next_generation_width, next_generation_height]
    exact h2l
  · exact hgl
  · intro x y _ _
    rw [hh2, hgi]

/-- Witness for C4 on the concrete 5×5 blinker. -/
theorem C4_blinker_period_two_witness :
    (∀ x : Nat, x < blinkerG.width → ∀ y : Nat, y < blinkerG.height →
        blinkerG.get x y = horizB x y) ∧
    (next_generation blinkerG dead5).get 2 1 = vertB 2 1 ∧
    (next_generation blinkerG dead5).get 1 2 = vertB 1 2 ∧
    next_generation (next_generation blinkerG dead5) dead5 = blinkerG := by
  have h := C4_blinker_period_two blinkerG dead5 dead5 (by decide) (by decide)
    (by decide) (by decide) (by decide) (by decide) (by decide) (by decide)
    (by decide) (by decide)
  exact ⟨by decide, h.1 2 1, h.1 1 2, h.2⟩

/-- C5: `swap` only exchanges the front/back roles without touching cell
data: after populating the back grid and swapping, `front()` returns exactly
the populated data and `back()` the formerly-front data; front and back
always select complementary components, and both buffers of a freshly built
double buffer have the requested dimensions. -/
theorem C5_swap_flips_roles (d : double_buffered_grid) (g : grid)
    (w h : Nat) (da db : List Bool) :
    ((d.setBack g).swap.front = g ∧ (d.setBack g).swap.back = d.front) ∧
    (d.swap.a = d.a ∧ d.swap.b = d.b ∧ d.swap.first = !d.first) ∧
    ((d.front = d.a ∧ d.back = d.b) ∨ (d.front = d.b ∧ d.back = d.a)) ∧
    ((double_buffered_grid.init w h da db).front.width = w ∧
     (double_buffered_grid.init w h da db).front.height = h ∧
     (double_buffered_grid.init w h da db).back.width = w ∧
     (double_buffered_grid.init w h da db).back.height = h) := by
  unfold double_buffered_grid.front double_buffered_grid.back
    double_buffered_grid.swap double_buffered_grid.setBack double_buffered_grid.init
  cases hf : d.first <;> simp [hf]

/-- C6: `tick()` computes `next_generation` reading the front buffer and
writing the back buffer, then swaps: afterwards the front buffer holds
exactly the next generation of the previous front, the new back buffer is
the previous front grid, and nothing else changes. -/
theorem C6_tick_advances_one_generation (s : game_of_life)
    (hw : s.buffer.back.width = s.buffer.front.width)
    (hh : s.buffer.back.height = s.buffer.front.height)
    (hlen : s.buffer.back.data.length = s.buffer.back.width * s.buffer.back.height) :
    s.tick.buffer.front = next_generation s.buffer.front s.buffer.back ∧
    s.tick.buffer.back = s.buffer.front ∧
    ∀ x y : Int, 0 ≤ x → x < s.buffer.front.width → 0 ≤ y → y < s.buffer.front.height →
      s.tick.buffer.front.get x y = lifeStep s.buffer.front x y := by
  obtain ⟨⟨fst, ga, gb⟩⟩ := s
  have h1 : game_of_life.tick ⟨⟨fst, ga, gb⟩⟩ =
      ⟨⟨!fst, if fst then ga else next_generation (if fst then ga else gb) (if fst then gb else ga),
        if fst then next_generation (if fst then ga else gb) (if fst then gb else ga) else gb⟩⟩ := by
    cases fst <;> rfl
  cases fst
  · refine ⟨rfl, rfl, fun x y hx hxw hy hyh => ?_⟩
    exact next_generation_get _ _ hw hh hlen x y hx hxw hy hyh
  · refine ⟨rfl, rfl, fun x y hx hxw hy hyh => ?_⟩
    exact next_generation_get _ _ hw hh hlen x y hx hxw hy hyh

/-- Witness for C6 on the blinker simulation. -/
theorem C6_tick_advances_one_generation_witness :
    game5.tick.buffer.front = next_generation game5.buffer.front game5.buffer.back ∧
    game5.tick.buffer.back = game5.buffer.front ∧
    game5.tick.buffer.front.get 2 1 = lifeStep game5.buffer.front 2 1 := by
  have h := C6_tick_advances_one_generation game5 (by decide) (by decide) (by decide)
  exact ⟨h.1, h.2.1, h.2.2 2 1 (by decide) (by decide) (by decide) (by decide)⟩

/-- C7: for an even-height front grid, `render` maps each row pair (2r, 2r+1)
and column c to exactly one of four glyphs determined solely by the two
cells — blank, upper half, lower half or full block — producing a
(height/2)×width character display and leaving the rest of the screen
untouched. -/
theorem C7_render_half_blocks (s : game_of_life) (scr : Screen)
    (he : s.buffer.front.height % 2 = 0) :
    (∀ r c : Nat, s.render scr r c
        = if r < s.buffer.front.height / 2 ∧ c < s.buffer.front.width
          then glyph (s.buffer.front.get c (2 * r)) (s.buffer.front.get c (2 * r + 1))
          else scr r c) ∧
    glyph false false = blank ∧ glyph true false = upper ∧
    glyph false true = lower ∧ glyph true true = full := by
  refine ⟨fun r c => ?_, rfl, rfl, rfl, rfl⟩
  exact renderGrid_apply s.buffer.front scr r c

/-- Witness for C7 on the spec's 2×2 example. -/
theorem C7_render_half_blocks_witness :
    gameR.buffer.front.height % 2 = 0 ∧
    gameR.render screen0 0 0 = upper ∧
    gameR.render screen0 0 1 = lower ∧
    gameR.render screen0 5 5 = screen0 5 5 := by
  have h := C7_render_half_blocks gameR screen0 (by decide)
  refine ⟨by decide, ?_, ?_, ?_⟩
  · rw [h.1 0 0]; decide
  · rw [h.1 0 1]; decide
  · rw [h.1 5 5]; decide

/-- C8: at construction every back-buffer cell is seeded from its own draw of
the stream of `uniform_int_distribution{0, frequency}` values (frequency = 3),
the cell being alive iff the draw equals 0; after seeding the buffers are
swapped, so the seeded grid is the front buffer before any tick and the
untouched grid is the back buffer. -/
theorem C8_random_seeding (w h : Nat) (draws : Nat → Nat)
    (hd : ∀ i, draws i ≤ frequency) (da db : List Bool)
    (hdb : db.length = w * h) :
    frequency = 3 ∧
    (∀ x : Nat, x < w → ∀ y : Nat, y < h →
      (game_of_life.init w h draws da db).buffer.front.get x y
        = (draws (x + y * w) == 0)) ∧
    (game_of_life.init w h draws da db).buffer.back = ⟨w, h, da⟩ := by
  refine ⟨rfl, ?_, rfl⟩
  intro x hx y hy
  show (game_of_life.seedLoop w h draws ⟨w, h, db⟩).get x y = _
  exact seedLoop_get w h draws ⟨w, h, db⟩ rfl rfl (by simpa using hdb) x y hx hy

/-- The constant draw stream used by the C8 witness. -/
def zeros : Nat → Nat := fun _ => 0

/-- Witness for C8 on a 2×2 board with the constant draw stream 0. -/
theorem C8_random_seeding_witness :
    (∀ i : Nat, zeros i ≤ frequency) ∧
    (game_of_life.init 2 2 zeros [] [false, false, false, false]).buffer.front.get 1 1
      = (zeros (1 + 1 * 2) == 0) ∧
    (game_of_life.init 2 2 zeros [] [false, false, false, false]).buffer.back
      = ⟨2, 2, []⟩ := by
  have h := C8_random_seeding 2 2 zeros (fun i => Nat.zero_le _) []
    [false, false, false, false] (by decide)
  exact ⟨fun i => Nat.zero_le _, h.2.1 1 (by decide) 1 (by decide), h.2.2⟩

/-- C9: calling `render` with an odd front-grid height fails the assertion
fast (modelled as `none`) instead of being handled; with an even height the
assertion can never fire and rendering proceeds. -/
theorem C9_render_asserts_even_height (s : game_of_life) (scr : Screen) :
    (s.buffer.front.height % 2 = 1 → s.render? scr = none) ∧
    (s.buffer.front.height % 2 = 0 → s.render? scr = some (s.render scr)) := by
  constructor <;> intro h <;> simp [game_of_life.render?, h]

/-- Witness for C9: an odd-height and an even-height simulation. -/
theorem C9_render_asserts_even_height_witness :
    gameOdd.render? screen0 = none ∧
    gameR.render? screen0 = some (gameR.render screen0) :=
  ⟨(C9_render_asserts_even_height gameOdd screen0).1 (by decide),
   (C9_render_asserts_even_height gameR screen0).2 (by decide)⟩

/-- C10: for equal positive dimensions, every access `next_generation`
performs is in bounds — the assertion-explicit model `next_generation?`
never hits a failing assertion and agrees with the total model. -/
theorem C10_all_accesses_in_bounds (src out : grid)
    (hpw : 0 < src.width) (hph : 0 < src.height)
    (hw : src.width = out.width) (hh : src.height = out.height) :
    next_generation? src out = some (next_generation src out) :=
  next_generation?_eq src out hw hh

/-- Witness for C10 on the blinker grid. -/
theorem C10_all_accesses_in_bounds_witness :
    0 < blinkerG.width ∧
    next_generation? blinkerG dead5 = some (next_generation blinkerG dead5) :=
  ⟨by decide, C10_all_accesses_in_bounds blinkerG dead5 (by decide) (by decide)
    (by decide) (by decide)⟩

end GoL
